import Mathlib

/-!
Verification of the report-aggregation logic of `compute_loc_changes.py`
from the cheri-change-analysis repository.

Python dataclasses are embedded as Lean structures.  Python `int` line and
file counts are modelled as `Nat` (the external counting tool only produces
non-negative counts), Python `float` as `ℚ`, optional values as `Option`,
and the mutation performed by `__post_init__` as an explicit construction
function `mkCLOCReport`.  The output phase of the script (writing the two
table files, the macro-definition loop with its uniqueness assertion, and
the macro file) is modelled as a trace of events.
-/

/-- Models the `ClocSummary` dataclass: blank/comment/code line counts plus
file count for one revision or one diff partition. -/
structure ClocSummary where
  blank : Nat
  comment : Nat
  code : Nat
  nFiles : Nat
  deriving DecidableEq

/-- Models the `ClocDiff` dataclass: four summaries for the added, removed,
modified and unchanged diff partitions. -/
structure ClocDiff where
  removed : ClocSummary
  added : ClocSummary
  modified : ClocSummary
  same : ClocSummary
  deriving DecidableEq

/-- Models the `GitRef` dataclass: a branch name plus its expected commit
hash (the runtime verification flag is omitted, it never changes the value
returned by `GitRef.hash`). -/
structure GitRef where
  branch : String
  hash : String
  deriving DecidableEq

/-- Models the Python type `Optional[Union[bool, str]]` used by the
`extra_*` columns of a project descriptor. -/
abbrev OptBoolStr := Option (Bool ⊕ String)

/-- Models the `Project` dataclass: a project descriptor from the static
registry.  Field defaults match the Python dataclass defaults. -/
structure Project where
  repo_subdir : String
  project_name : String
  baseline : GitRef
  cheri : GitRef
  cheri_minimal : Option GitRef := none
  cheri_no_offset : Option GitRef := none
  extra_cloc_args : List String := []
  commented : Bool := false
  no_cheri_specific_changes : Bool := false
  latex_project_name : Option String := none
  extra_efficiency : OptBoolStr := none
  extra_offset : OptBoolStr := none
  extra_ptrcmp : OptBoolStr := none
  extra_cherish : OptBoolStr := none
  extra_other : OptBoolStr := none
  extra_notes : OptBoolStr := none
  extra_override_text : Option String := none
  deriving DecidableEq

/-- Models the `CLOCReport` dataclass after `__post_init__` has parsed the
raw JSON blocks: the owning project, the baseline summary, the optional
CHERI-revision summary, the optional diff, and the per-language code-line
counts extracted from the baseline data. -/
structure CLOCReport where
  project : Project
  baseline : ClocSummary
  cheri : Option ClocSummary := none
  diff : Option ClocDiff := none
  languages : List (String × Nat) := []
  deriving DecidableEq

/-- Models the property `CLOCReport.changed_loc_abs`: zero when no diff is
present, otherwise the sum of the modified, added and removed code-line
counts. -/
def CLOCReport.changed_loc_abs (r : CLOCReport) : Nat :=
  match r.diff with
  | none => 0
  | some d => d.modified.code + d.added.code + d.removed.code

/-- Models the property `CLOCReport.changed_files_abs`: zero when no diff is
present, otherwise only the modified file count (the added and removed file
counts are considered unreliable by the source and are not used). -/
def CLOCReport.changed_files_abs (r : CLOCReport) : Nat :=
  match r.diff with
  | none => 0
  | some d => d.modified.nFiles

/-- Models the property `CLOCReport.changed_loc_percent`, which computes
`100.0 * (self.changed_loc_abs / self.baseline.code)`. -/
def CLOCReport.changed_loc_percent (r : CLOCReport) : ℚ :=
  100 * ((r.changed_loc_abs : ℚ) / (r.baseline.code : ℚ))

/-- Models the property `CLOCReport.changed_files_percent`, which computes
`100.0 * (self.changed_files_abs / self.baseline.nFiles)`. -/
def CLOCReport.changed_files_percent (r : CLOCReport) : ℚ :=
  100 * ((r.changed_files_abs : ℚ) / (r.baseline.nFiles : ℚ))

/-- Models the diff normalisation performed at the end of
`CLOCReport.__post_init__`: when the diff has whitespace/comment-only
changes (zero changed code lines but a nonzero modified file count), the
modified file count is forced to zero. -/
def postInitDiff (d : ClocDiff) : ClocDiff :=
  if d.modified.code + d.added.code + d.removed.code = 0 ∧ d.modified.nFiles ≠ 0 then
    { d with modified := { d.modified with nFiles := 0 } }
  else d

/-- Models construction of a `CLOCReport` (`__init__` followed by
`__post_init__`): the parsed diff, when present, is normalised by
`postInitDiff`. -/
def mkCLOCReport (project : Project) (baseline : ClocSummary)
    (cheri : Option ClocSummary) (diff : Option ClocDiff)
    (languages : List (String × Nat)) : CLOCReport :=
  { project := project, baseline := baseline, cheri := cheri,
    diff := diff.map postInitDiff, languages := languages }

/-- Example project descriptor used by concrete witnesses. -/
def exampleProjectA : Project :=
  { repo_subdir := "demo", project_name := "Demo",
    baseline := { branch := "master", hash := "aaaa" },
    cheri := { branch := "cheri", hash := "bbbb" } }

/-- Example diff matching the numbers used in the specification:
added.code = 1000, removed.code = 500, modified.code = 2000. -/
def exampleDiffA : ClocDiff :=
  { removed := { blank := 0, comment := 0, code := 500, nFiles := 2 },
    added := { blank := 0, comment := 0, code := 1000, nFiles := 3 },
    modified := { blank := 1, comment := 2, code := 2000, nFiles := 7 },
    same := { blank := 0, comment := 0, code := 0, nFiles := 0 } }

/-- Example report with the baseline of the specification (code = 132009)
and the diff `exampleDiffA`, so 3500 changed lines. -/
def exampleReportA : CLOCReport :=
  mkCLOCReport exampleProjectA
    { blank := 47590, comment := 5545, code := 132009, nFiles := 334 }
    none (some exampleDiffA) [("C", 100000), ("C++", 32009)]

/-- C1: for every CLOCReport whose diff is present, `changed_loc_abs` equals
`diff.added.code + diff.removed.code + diff.modified.code`, and
`changed_files_abs` equals `diff.modified.nFiles` only (added and removed
file counts are never included). -/
theorem changed_abs_from_diff (r : CLOCReport) (d : ClocDiff) (h : r.diff = some d) :
    r.changed_loc_abs = d.added.code + d.removed.code + d.modified.code ∧
      r.changed_files_abs = d.modified.nFiles := by
  refine ⟨?_, ?_⟩ <;> simp [CLOCReport.changed_loc_abs, CLOCReport.changed_files_abs, h]
  omega

/-- Witness for C1 at the concrete report `exampleReportA`. -/
theorem changed_abs_from_diff_witness :
    exampleReportA.diff = some exampleDiffA ∧
      (exampleReportA.changed_loc_abs =
          exampleDiffA.added.code + exampleDiffA.removed.code + exampleDiffA.modified.code ∧
        exampleReportA.changed_files_abs = exampleDiffA.modified.nFiles) :=
  ⟨by decide, changed_abs_from_diff exampleReportA exampleDiffA (by decide)⟩

/-- C2: for every CLOCReport constructed with a diff, after construction
completes, a zero changed-line count forces a zero changed-file count. -/
theorem postinit_zero_loc_zero_files (p : Project) (b : ClocSummary)
    (c : Option ClocSummary) (d : ClocDiff) (langs : List (String × Nat))
    (h : (mkCLOCReport p b c (some d) langs).changed_loc_abs = 0) :
    (mkCLOCReport p b c (some d) langs).changed_files_abs = 0 := by
  have hd : (mkCLOCReport p b c (some d) langs).diff = some (postInitDiff d) := rfl
  have h1 : (mkCLOCReport p b c (some d) langs).changed_loc_abs =
      (postInitDiff d).modified.code + (postInitDiff d).added.code +
        (postInitDiff d).removed.code := by
    simp [CLOCReport.changed_loc_abs, hd]
  have h2 : (mkCLOCReport p b c (some d) langs).changed_files_abs =
      (postInitDiff d).modified.nFiles := by
    simp [CLOCReport.changed_files_abs, hd]
  rw [h1] at h
  rw [h2]
  unfold postInitDiff at h ⊢
  split_ifs at h ⊢ with hc
  · rfl
  · push_neg at hc
    exact hc h

/-- Example diff with whitespace/comment-only modifications: zero changed
code lines but a raw modified file count of 7. -/
def exampleDiffWhitespace : ClocDiff :=
  { removed := { blank := 0, comment := 0, code := 0, nFiles := 0 },
    added := { blank := 0, comment := 0, code := 0, nFiles := 0 },
    modified := { blank := 5, comment := 6, code := 0, nFiles := 7 },
    same := { blank := 0, comment := 0, code := 0, nFiles := 0 } }

/-- Witness for C2: a report whose raw diff has 7 modified files but zero
changed lines ends up with zero changed files after construction. -/
theorem postinit_zero_loc_zero_files_witness :
    (mkCLOCReport exampleProjectA { blank := 0, comment := 0, code := 10, nFiles := 1 }
        none (some exampleDiffWhitespace) []).changed_loc_abs = 0 ∧
      (mkCLOCReport exampleProjectA { blank := 0, comment := 0, code := 10, nFiles := 1 }
        none (some exampleDiffWhitespace) []).changed_files_abs = 0 :=
  ⟨by decide,
    postinit_zero_loc_zero_files exampleProjectA
      { blank := 0, comment := 0, code := 10, nFiles := 1 } none exampleDiffWhitespace []
      (by decide)⟩

/-- C5: for every CLOCReport with nonzero baseline code count,
`changed_loc_percent` equals `100 * changed_loc_abs / baseline.code`; at the
specification's concrete numbers (baseline code 132009, added 1000, removed
500, modified 2000) it equals `350000 / 132009`, which lies strictly between
2.65 and 2.66. -/
theorem changed_loc_percent_spec (r : CLOCReport) (h : r.baseline.code ≠ 0) :
    r.changed_loc_percent = 100 * (r.changed_loc_abs : ℚ) / (r.baseline.code : ℚ) ∧
      exampleReportA.changed_loc_percent = 350000 / 132009 ∧
      265 / 100 < exampleReportA.changed_loc_percent ∧
      exampleReportA.changed_loc_percent < 266 / 100 := by
  have habs : exampleReportA.changed_loc_abs = 3500 := by decide
  have hbase : exampleReportA.baseline.code = 132009 := by decide
  have hpct : exampleReportA.changed_loc_percent = 350000 / 132009 := by
    rw [CLOCReport.changed_loc_percent, habs, hbase]
    norm_num
  refine ⟨?_, hpct, ?_, ?_⟩
  · rw [CLOCReport.changed_loc_percent, mul_div_assoc]
  · rw [hpct]; norm_num
  · rw [hpct]; norm_num

/-- Witness for C5 at the concrete report `exampleReportA`. -/
theorem changed_loc_percent_spec_witness :
    exampleReportA.baseline.code ≠ 0 ∧
      (exampleReportA.changed_loc_percent =
          100 * (exampleReportA.changed_loc_abs : ℚ) / (exampleReportA.baseline.code : ℚ) ∧
        exampleReportA.changed_loc_percent = 350000 / 132009 ∧
        265 / 100 < exampleReportA.changed_loc_percent ∧
        exampleReportA.changed_loc_percent < 266 / 100) :=
  ⟨by decide, changed_loc_percent_spec exampleReportA (by decide)⟩

/-- Models the separator set used by `CLOCReport.escape_name_for_macro`. -/
def is_sep (c : Char) : Bool :=
  c = '-' || c = ' ' || c = '\t' || c = '_' || c = '.' || c = '(' || c = ')'

/-- Models the loop of `CLOCReport.escape_name_for_macro`: a separator sets
the uppercase flag and is dropped, an alphabetic character is kept
(uppercased when the flag is set) and clears the flag, and every other
character is dropped leaving the flag untouched. -/
def escapeChars : Bool → List Char → List Char
  | _, [] => []
  | next_upper, c :: rest =>
    if is_sep c then escapeChars true rest
    else if c.isAlpha then
      (if next_upper then c.toUpper else c) :: escapeChars false rest
    else escapeChars next_upper rest

/-- Models the static method `CLOCReport.escape_name_for_macro` (shortened
name): transliterate a display name into a TeX-safe identifier. -/
def escapeName (s : String) : String := ⟨escapeChars true s.data⟩

/-- Models the property `CLOCReport.project_name_for_latex`: the LaTeX
display name when it is set and non-empty (Python truthiness of the
string), otherwise the plain project name. -/
def CLOCReport.project_name_for_latex (r : CLOCReport) : String :=
  match r.project.latex_project_name with
  | some s => if s = "" then r.project.project_name else s
  | none => r.project.project_name

/-- A separator character is never alphabetic. -/
theorem sep_not_alpha (c : Char) (h : is_sep c = true) : c.isAlpha = false := by
  simp only [is_sep, Bool.or_eq_true, decide_eq_true_eq] at h
  rcases h with ((((((h | h) | h) | h) | h) | h) | h) <;> subst h <;> decide

/-- The characters produced by the transliteration loop are exactly the
alphabetic characters of the input in order, each kept as is or
uppercased. -/
theorem escapeChars_chars (l : List Char) : ∀ (u : Bool),
    List.Forall₂ (fun c2 c => c2 = c ∨ c2 = c.toUpper)
      (escapeChars u l) (l.filter Char.isAlpha) := by
  induction l with
  | nil => intro u; simp [escapeChars]
  | cons c rest ih =>
    intro u
    by_cases hs : is_sep c
    · have ha : c.isAlpha = false := sep_not_alpha c hs
      simpa [escapeChars, hs, ha] using ih true
    · by_cases ha : c.isAlpha
      · simp only [escapeChars, hs, ha, if_true, if_false, Bool.false_eq_true,
          List.filter_cons_of_pos]
        refine List.Forall₂.cons ?_ (ih false)
        cases u <;> simp
      · simpa [escapeChars, hs, ha] using ih u

/-- Dropping the characters that the transliteration loop ignores (all
non-alphabetic non-separator characters, in particular all digits) does not
change its output, whatever the state of the uppercase flag. -/
theorem escapeChars_filter (l : List Char) : ∀ (u : Bool),
    escapeChars u (l.filter (fun c => c.isAlpha || is_sep c)) = escapeChars u l := by
  induction l with
  | nil => intro u; rfl
  | cons c rest ih =>
    intro u
    by_cases hs : is_sep c
    · simp [escapeChars, hs, ih]
    · by_cases ha : c.isAlpha
      · simp [escapeChars, hs, ha, ih]
      · simp [escapeChars, hs, ha, ih]

/-- C10: `escapeName` returns exactly the alphabetic characters of the input
in order (each possibly uppercased); every non-alphabetic character outside
the separator set — in particular every digit — is deleted without
affecting capitalization, so two display names that agree after erasing
such characters map to the same macro identifier. -/
theorem escapeName_spec (s t : String) :
    List.Forall₂ (fun c2 c => c2 = c ∨ c2 = c.toUpper)
        (escapeName s).data (s.data.filter Char.isAlpha) ∧
      escapeName ⟨s.data.filter (fun c => c.isAlpha || is_sep c)⟩ = escapeName s ∧
      (s.data.filter (fun c => c.isAlpha || is_sep c) =
          t.data.filter (fun c => c.isAlpha || is_sep c) →
        escapeName s = escapeName t) := by
  refine ⟨escapeChars_chars s.data true, ?_, ?_⟩
  · show (⟨escapeChars true (s.data.filter fun c => c.isAlpha || is_sep c)⟩ : String) = _
    rw [escapeChars_filter s.data true]
    rfl
  · intro he
    show (⟨escapeChars true s.data⟩ : String) = ⟨escapeChars true t.data⟩
    rw [← escapeChars_filter s.data true, ← escapeChars_filter t.data true, he]

/-- Witness for C10: the display names "Foo 1" and "Foo 2" differ only in a
digit and transliterate to the same identifier. -/
theorem escapeName_spec_witness :
    ("Foo 1".data.filter (fun c => c.isAlpha || is_sep c) =
        "Foo 2".data.filter (fun c => c.isAlpha || is_sep c)) ∧
      escapeName "Foo 1" = escapeName "Foo 2" :=
  ⟨by decide, (escapeName_spec "Foo 1" "Foo 2").2.2 (by decide)⟩

/-- Rounding of a rational to the nearest integer with ties to even,
modelling CPython float formatting for the exactly representable
non-negative values produced by the script. -/
def roundHalfEven (x : ℚ) : ℤ :=
  let f := ⌊x⌋
  let r := x - f
  if r < 1/2 then f else if 1/2 < r then f + 1 else if f % 2 = 0 then f else f + 1

/-- Models the Python format specifier `"{:.2f}"` applied to the
non-negative percentage values of the script. -/
def formatPercent2 (x : ℚ) : String :=
  let m := (roundHalfEven (100 * x)).toNat
  toString (m / 100) ++ "." ++ (if m % 100 < 10 then "0" else "") ++ toString (m % 100)

/-- Models the Python format specifier `"{:.1f}"` applied to the
non-negative percentage values of the script. -/
def formatPercent1 (x : ℚ) : String :=
  let m := (roundHalfEven (10 * x)).toNat
  toString (m / 10) ++ "." ++ toString (m % 10)

/-- Left brace, written as an escape so the TeX templates below stay plain
strings. -/
def lb : String := "\x7b"

/-- Right brace. -/
def rb : String := "\x7d"

/-- Models `CLOCReport.macro_definitions` as the list of the five generated
newcommand lines, in source order: total SLOC, changed SLOC, changed SLOC
ratio, changed files, changed files ratio. -/
def commandDefLines (r : CLOCReport) : List String :=
  let fullname := escapeName r.project_name_for_latex
  ["\\newcommand*" ++ lb ++ "\\TotalSloc" ++ fullname ++ rb ++ lb ++
      toString r.baseline.code ++ rb,
    "\\newcommand*" ++ lb ++ "\\ChangedSloc" ++ fullname ++ rb ++ lb ++
      toString r.changed_loc_abs ++ rb,
    "\\newcommand*" ++ lb ++ "\\ChangedSlocRatio" ++ fullname ++ rb ++ lb ++
      formatPercent2 r.changed_loc_percent ++ "\\%" ++ rb,
    "\\newcommand*" ++ lb ++ "\\ChangedFiles" ++ fullname ++ rb ++ lb ++
      toString r.changed_files_abs ++ rb,
    "\\newcommand*" ++ lb ++ "\\ChangedFilesRatio" ++ fullname ++ rb ++ lb ++
      formatPercent1 r.changed_files_percent ++ "\\%" ++ rb]

/-- Models the string returned by `CLOCReport.macro_definitions`: the five
lines joined by newlines, with a trailing newline. -/
def commandDefs (r : CLOCReport) : String :=
  String.intercalate "\n" (commandDefLines r) ++ "\n"

/-- Example report for the macro-definition claim: total SLOC 1000, changed
SLOC 50 (and 3 of 10 files changed). -/
def exampleReportB : CLOCReport :=
  mkCLOCReport exampleProjectA
    { blank := 0, comment := 0, code := 1000, nFiles := 10 }
    none
    (some { removed := { blank := 0, comment := 0, code := 0, nFiles := 0 },
            added := { blank := 0, comment := 0, code := 0, nFiles := 0 },
            modified := { blank := 0, comment := 0, code := 50, nFiles := 3 },
            same := { blank := 0, comment := 0, code := 0, nFiles := 0 } })
    [("C", 1000)]

/-- C6: for a project with total baseline SLOC 1000 and changed SLOC 50, the
emitted changed-SLOC-ratio macro line carries the value "5.00%" (two decimal
places), i.e. the third generated line defines ChangedSlocRatioDemo as
5.00\%. -/
theorem commandDefs_ratio_five :
    (commandDefLines exampleReportB).get? 2 =
      some ("\\newcommand*" ++ lb ++ "\\ChangedSlocRatioDemo" ++ rb ++ lb ++
        "5.00" ++ "\\%" ++ rb) := by
  have habs : exampleReportB.changed_loc_abs = 50 := by decide
  have hbase : exampleReportB.baseline.code = 1000 := by decide
  have hpct : exampleReportB.changed_loc_percent = 5 := by
    rw [CLOCReport.changed_loc_percent, habs, hbase]; norm_num
  have hfmt : formatPercent2 (5 : ℚ) = "5.00" := by
    norm_num [formatPercent2, roundHalfEven]
    decide
  have hname : escapeName exampleReportB.project_name_for_latex = "Demo" := by decide
  simp only [commandDefLines, hpct, hfmt, hname, List.get?]
  decide

/-- Models the `SummaryReport` dataclass: running totals accumulated over a
subset of the reports. -/
structure SummaryReport where
  sloc : Nat := 0
  files : Nat := 0
  modified_sloc : Nat := 0
  modified_files : Nat := 0
  projects : List Project := []
  deriving DecidableEq

/-- Models `SummaryReport.combine`: always add the baseline code lines and
file count; add the changed lines and changed files only when
`ignore_changes` is not set; record the project. -/
def SummaryReport.combine (s : SummaryReport) (report : CLOCReport)
    (ignore_changes : Bool) : SummaryReport :=
  { sloc := s.sloc + report.baseline.code,
    files := s.files + report.baseline.nFiles,
    modified_sloc :=
      if ignore_changes then s.modified_sloc else s.modified_sloc + report.changed_loc_abs,
    modified_files :=
      if ignore_changes then s.modified_files else s.modified_files + report.changed_files_abs,
    projects := s.projects ++ [report.project] }

/-- C8: `combine` with `ignore_changes := true` adds the baseline code and
file counts and leaves the modified counters unchanged; with
`ignore_changes := false` it additionally adds `changed_loc_abs` to
`modified_sloc` and `changed_files_abs` to `modified_files`. -/
theorem combine_spec (s : SummaryReport) (r : CLOCReport) :
    (s.combine r true).sloc = s.sloc + r.baseline.code ∧
      (s.combine r true).files = s.files + r.baseline.nFiles ∧
      (s.combine r true).modified_sloc = s.modified_sloc ∧
      (s.combine r true).modified_files = s.modified_files ∧
      (s.combine r false).sloc = s.sloc + r.baseline.code ∧
      (s.combine r false).files = s.files + r.baseline.nFiles ∧
      (s.combine r false).modified_sloc = s.modified_sloc + r.changed_loc_abs ∧
      (s.combine r false).modified_files = s.modified_files + r.changed_files_abs := by
  simp [SummaryReport.combine]


/-- Models the denominator of `CLOCReport.language_ratios`: the sum of the
tracked per-language code-line counts (the loop accumulating `total`). -/
def CLOCReport.total_language_loc (r : CLOCReport) : Nat :=
  (r.languages.map Prod.snd).sum

/-- Models the body of the ratio loop in `CLOCReport.language_ratios`: a
language is kept with its share of the total when that share exceeds 1%,
and dropped otherwise. -/
def ratioFilter (c : ℚ) (p : String × Nat) : Option (String × ℚ) :=
  if (p.2 : ℚ) / c > 1/100 then some (p.1, (p.2 : ℚ) / c) else none

/-- Models the property `CLOCReport.language_ratios`: each tracked language
whose share of the total tracked code lines exceeds 1% is kept with its
share; the kept entries are then sorted ascending by share (Python's stable
`sorted` keyed on the value) and reversed. -/
def CLOCReport.language_ratios (r : CLOCReport) : List (String × ℚ) :=
  let ratios := r.languages.filterMap (ratioFilter (r.total_language_loc : ℚ))
  (ratios.mergeSort (fun a b => decide (a.2 ≤ b.2))).reverse

/-- Models the property `CLOCReport.main_language`: the first key of
`language_ratios`, or the "????" sentinel when no language was tracked. -/
def CLOCReport.main_language (r : CLOCReport) : String :=
  match r.language_ratios with
  | [] => "????"
  | (k, _) :: _ => k

/-- The sum of the values kept by the ratio filter is bounded by the sum of
all the shares, for a non-negative denominator. -/
theorem sum_filterMap_ratios_le (c : ℚ) (hc : 0 ≤ c) : ∀ (l : List (String × Nat)),
    ((l.filterMap (ratioFilter c)).map Prod.snd).sum ≤
      (l.map (fun p => (p.2 : ℚ) / c)).sum := by
  intro l
  induction l with
  | nil => simp
  | cons p rest ih =>
    have hnn : 0 ≤ (p.2 : ℚ) / c := div_nonneg (by positivity) hc
    by_cases hp : ((p.2 : ℚ) / c) > 1/100
    · simp only [List.filterMap_cons, ratioFilter, hp, if_true, List.map_cons, List.sum_cons]
      exact add_le_add_left ih _
    · simp only [List.filterMap_cons, ratioFilter, hp, if_false, List.map_cons, List.sum_cons]
      calc ((rest.filterMap (ratioFilter c)).map Prod.snd).sum ≤
            (rest.map (fun p => (p.2 : ℚ) / c)).sum := ih
        _ ≤ (p.2 : ℚ) / c + (rest.map (fun p => (p.2 : ℚ) / c)).sum := by linarith

/-- Summing the per-language shares equals the summed counts divided by the
common denominator. -/
theorem sum_map_div_ratios (c : ℚ) : ∀ (l : List (String × Nat)),
    (l.map (fun p => (p.2 : ℚ) / c)).sum = ((l.map Prod.snd).sum : ℚ) / c := by
  intro l
  induction l with
  | nil => simp
  | cons p rest ih =>
    simp only [List.map_cons, List.sum_cons, ih]
    push_cast
    rw [add_div]

/-- C4: for every CLOCReport with a positive tracked-language total,
`language_ratios` contains exactly the tracked languages whose share of the
total tracked code lines exceeds 1%, with their exact shares; the displayed
values sum to at most the sum of the shares over all tracked languages, and
to at most 1. -/
theorem language_ratios_spec (r : CLOCReport) (h : 0 < r.total_language_loc) :
    (∀ lang q, (lang, q) ∈ r.language_ratios ↔
        ∃ n, (lang, n) ∈ r.languages ∧
          (n : ℚ) / (r.total_language_loc : ℚ) > 1/100 ∧
          q = (n : ℚ) / (r.total_language_loc : ℚ)) ∧
      ((r.language_ratios.map Prod.snd).sum ≤
        (r.languages.map (fun p => (p.2 : ℚ) / (r.total_language_loc : ℚ))).sum) ∧
      (r.language_ratios.map Prod.snd).sum ≤ 1 := by
  have hperm : r.language_ratios.Perm
      (r.languages.filterMap (ratioFilter (r.total_language_loc : ℚ))) := by
    unfold CLOCReport.language_ratios
    exact (List.reverse_perm _).trans (List.mergeSort_perm _ _)
  have hsum : (r.language_ratios.map Prod.snd).sum =
      ((r.languages.filterMap (ratioFilter (r.total_language_loc : ℚ))).map Prod.snd).sum :=
    (hperm.map Prod.snd).sum_eq
  have hle := sum_filterMap_ratios_le (r.total_language_loc : ℚ) (by positivity) r.languages
  have htot : (r.languages.map (fun p => (p.2 : ℚ) / (r.total_language_loc : ℚ))).sum = 1 := by
    rw [sum_map_div_ratios]
    exact div_self (by exact_mod_cast h.ne')
  refine ⟨?_, ?_, ?_⟩
  · intro lang q
    rw [hperm.mem_iff, List.mem_filterMap]
    constructor
    · rintro ⟨⟨pl, pn⟩, hp, hf⟩
      unfold ratioFilter at hf
      split_ifs at hf with hcond
      · simp only [Option.some.injEq, Prod.mk.injEq] at hf
        obtain ⟨h1, h2⟩ := hf
        subst h1
        exact ⟨pn, hp, hcond, h2.symm⟩
    · rintro ⟨n, hn, hgt, hq⟩
      refine ⟨(lang, n), hn, ?_⟩
      unfold ratioFilter
      rw [if_pos hgt, hq]
  · rw [hsum]; exact hle
  · rw [hsum]; exact le_of_le_of_eq hle htot

/-- Witness for C4 at the concrete report `exampleReportA` (total tracked
lines 132009, languages C and C++). -/
theorem language_ratios_spec_witness :
    0 < exampleReportA.total_language_loc ∧
      ((∀ lang q, (lang, q) ∈ exampleReportA.language_ratios ↔
          ∃ n, (lang, n) ∈ exampleReportA.languages ∧
            (n : ℚ) / (exampleReportA.total_language_loc : ℚ) > 1/100 ∧
            q = (n : ℚ) / (exampleReportA.total_language_loc : ℚ)) ∧
        ((exampleReportA.language_ratios.map Prod.snd).sum ≤
          (exampleReportA.languages.map
            (fun p => (p.2 : ℚ) / (exampleReportA.total_language_loc : ℚ))).sum) ∧
        (exampleReportA.language_ratios.map Prod.snd).sum ≤ 1) :=
  ⟨by decide, language_ratios_spec exampleReportA (by decide)⟩

/-- The sort key used by `reports.sort`: the attrgetter tuple
(main_language, changed_loc_percent, changed_loc_abs). -/
abbrev ReportKey := String × ℚ × Nat

/-- Models Python tuple comparison (lexicographic less-or-equal) on the
sort key. -/
def keyLe (a b : ReportKey) : Bool :=
  decide (a.1 < b.1) ||
    (decide (a.1 = b.1) &&
      (decide (a.2.1 < b.2.1) ||
        (decide (a.2.1 = b.2.1) && decide (a.2.2 ≤ b.2.2))))

/-- Lexicographic key comparison is transitive. -/
theorem keyLe_trans : ∀ (a b c : ReportKey),
    keyLe a b = true → keyLe b c = true → keyLe a c = true := by
  intro a b c h1 h2
  simp only [keyLe, Bool.or_eq_true, Bool.and_eq_true, decide_eq_true_eq] at h1 h2 ⊢
  rcases h1 with h1 | ⟨h1e, h1r⟩
  · rcases h2 with h2 | ⟨h2e, h2r⟩
    · exact Or.inl (lt_trans h1 h2)
    · exact Or.inl (lt_of_lt_of_eq h1 h2e)
  · rcases h2 with h2 | ⟨h2e, h2r⟩
    · exact Or.inl (lt_of_eq_of_lt h1e h2)
    · refine Or.inr ⟨h1e.trans h2e, ?_⟩
      rcases h1r with h1r | ⟨h1q, h1n⟩
      · rcases h2r with h2r | ⟨h2q, h2n⟩
        · exact Or.inl (lt_trans h1r h2r)
        · exact Or.inl (lt_of_lt_of_eq h1r h2q)
      · rcases h2r with h2r | ⟨h2q, h2n⟩
        · exact Or.inl (lt_of_eq_of_lt h1q h2r)
        · exact Or.inr ⟨h1q.trans h2q, le_trans h1n h2n⟩

/-- Lexicographic key comparison is total. -/
theorem keyLe_total : ∀ (a b : ReportKey), (keyLe a b || keyLe b a) = true := by
  intro a b
  simp only [keyLe, Bool.or_eq_true, Bool.and_eq_true, decide_eq_true_eq]
  rcases lt_trichotomy a.1 b.1 with h | h | h
  · exact Or.inl (Or.inl h)
  · rcases lt_trichotomy a.2.1 b.2.1 with h2 | h2 | h2
    · exact Or.inl (Or.inr ⟨h, Or.inl h2⟩)
    · rcases le_total a.2.2 b.2.2 with h3 | h3
      · exact Or.inl (Or.inr ⟨h, Or.inr ⟨h2, h3⟩⟩)
      · exact Or.inr (Or.inr ⟨h.symm, Or.inr ⟨h2.symm, h3⟩⟩)
    · exact Or.inr (Or.inr ⟨h.symm, Or.inl h2⟩)
  · exact Or.inr (Or.inl h)

/-- Lexicographic key comparison is reflexive. -/
theorem keyLe_refl (a : ReportKey) : keyLe a a = true := by
  simp [keyLe]

/-- The sort key of a report, as read by `operator.attrgetter`. -/
def reportKey (r : CLOCReport) : ReportKey :=
  (r.main_language, r.changed_loc_percent, r.changed_loc_abs)

/-- The comparison used by `reports.sort`. -/
def reportLe (a b : CLOCReport) : Bool := keyLe (reportKey a) (reportKey b)

/-- Transitivity of the report comparison. -/
theorem reportLe_trans : ∀ (a b c : CLOCReport),
    reportLe a b = true → reportLe b c = true → reportLe a c = true :=
  fun _ _ _ => keyLe_trans _ _ _

/-- Totality of the report comparison. -/
theorem reportLe_total : ∀ (a b : CLOCReport), (reportLe a b || reportLe b a) = true :=
  fun _ _ => keyLe_total _ _

/-- Models `reports.sort(key=attrgetter('main_language', 'changed_loc_percent',
'changed_loc_abs'))`.  Python's `list.sort` is a stable ascending sort; a
stable sort with respect to a fixed total preorder is unique, so the stable
`mergeSort` computes the same list. -/
def sortReports (rs : List CLOCReport) : List CLOCReport :=
  rs.mergeSort reportLe

/-- C7: the presentation sort orders the reports ascending by the key tuple
(main_language, changed_loc_percent, changed_loc_abs) — every report's key
is lexicographically at most every later report's key — and it is stable:
for each key value, the reports carrying that key appear in the same order
as in the input. -/
theorem sortReports_spec (rs : List CLOCReport) :
    List.Pairwise (fun a b => reportLe a b = true) (sortReports rs) ∧
      ∀ k : ReportKey,
        (sortReports rs).filter (fun r => decide (reportKey r = k)) =
          rs.filter (fun r => decide (reportKey r = k)) := by
  constructor
  · exact List.sorted_mergeSort reportLe_trans reportLe_total rs
  · intro k
    set p : CLOCReport → Bool := fun r => decide (reportKey r = k) with hp
    have hsubl : (rs.filter p).Sublist rs := List.filter_sublist rs
    have hpw : List.Pairwise (fun a b => reportLe a b = true) (rs.filter p) := by
      apply List.pairwise_of_forall_mem_list
      intro a ha b hb
      have hak : reportKey a = k := by
        have := (List.mem_filter.mp ha).2
        simpa [hp] using this
      have hbk : reportKey b = k := by
        have := (List.mem_filter.mp hb).2
        simpa [hp] using this
      unfold reportLe
      rw [hak, hbk]
      exact keyLe_refl k
    have hstab : (rs.filter p).Sublist (sortReports rs) :=
      List.sublist_mergeSort reportLe_trans reportLe_total hpw hsubl
    have hperm : (sortReports rs).Perm rs := List.mergeSort_perm rs reportLe
    have hpermf : ((sortReports rs).filter p).Perm (rs.filter p) := hperm.filter p
    have hself : (rs.filter p).filter p = rs.filter p := by
      apply List.filter_eq_self.mpr
      intro a ha
      exact (List.mem_filter.mp ha).2
    have hsub2 : (rs.filter p).Sublist ((sortReports rs).filter p) := by
      have h1 := List.Sublist.filter p hstab
      rwa [hself] at h1
    exact (List.Sublist.eq_of_length hsub2 hpermf.length_eq.symm).symm

/-- An observable action of the output tail of the script: a file write or
the failure of the uniqueness assertion. -/
inductive Event where
  | write (path : String)
  | assertFail
  deriving DecidableEq

/-- Models the macro-definition loop at the end of the script: for each
report in order the macro text is accumulated (no file is touched), then
the raw display name is asserted not to have been seen before
(`assert report.project_name_for_latex not in ensure_unique_project_names`);
a duplicate aborts the run, and only when the loop completes is the macro
file written. -/
def emitLoop : List String → List String → List Event
  | [], _ => [Event.write "changes-macros.tex"]
  | n :: rest, seen =>
    if n ∈ seen then [Event.assertFail] else emitLoop rest (n :: seen)

/-- Models the file-output tail of the script in source order: the table
body and the full table are written first, then the macro loop with its
uniqueness assertion runs. -/
def outputTrace (reports : List CLOCReport) : List Event :=
  Event.write "table-data-rows.tex" :: Event.write "table.tex" ::
    emitLoop (reports.map CLOCReport.project_name_for_latex) []

/-- When the names contain a duplicate (or clash with the seen set), the
macro loop ends in the failed assertion and the macro file is never
written. -/
theorem emitLoop_dup : ∀ (names seen : List String),
    (¬ names.Nodup ∨ ∃ n ∈ names, n ∈ seen) →
      emitLoop names seen = [Event.assertFail] := by
  intro names
  induction names with
  | nil =>
    intro seen h
    rcases h with h | ⟨n, hn, _⟩
    · exact absurd List.nodup_nil h
    · exact absurd hn (List.not_mem_nil n)
  | cons m rest ih =>
    intro seen h
    by_cases hm : m ∈ seen
    · simp [emitLoop, hm]
    · rw [emitLoop, if_neg hm]
      apply ih
      rcases h with h | ⟨n, hn, hseen⟩
      · by_cases hmr : m ∈ rest
        · exact Or.inr ⟨m, hmr, List.mem_cons_self m seen⟩
        · refine Or.inl fun hnd => h ?_
          exact List.nodup_cons.mpr ⟨hmr, hnd⟩
      · rcases List.mem_cons.mp hn with rfl | hnr
        · exact absurd hseen hm
        · exact Or.inr ⟨n, hnr, List.mem_cons_of_mem m hseen⟩

/-- C3 (amended): when two reports share the same raw display name, the run
fails on the uniqueness assertion — but only after the two table files have
been written, and before the macro file is written; no other uniqueness
check exists. -/
theorem output_order_on_duplicate (reports : List CLOCReport)
    (h : ¬ (reports.map CLOCReport.project_name_for_latex).Nodup) :
    outputTrace reports =
      [Event.write "table-data-rows.tex", Event.write "table.tex", Event.assertFail] := by
  unfold outputTrace
  rw [emitLoop_dup _ [] (Or.inl h)]

/-- Project descriptor named "Foo 1". -/
def projectFoo1 : Project :=
  { repo_subdir := "foo1", project_name := "Foo 1",
    baseline := { branch := "m", hash := "h1" },
    cheri := { branch := "c", hash := "h2" } }

/-- Project descriptor named "Foo 2". -/
def projectFoo2 : Project :=
  { repo_subdir := "foo2", project_name := "Foo 2",
    baseline := { branch := "m", hash := "h3" },
    cheri := { branch := "c", hash := "h4" } }

/-- Report for "Foo 1". -/
def reportFoo1 : CLOCReport :=
  mkCLOCReport projectFoo1 { blank := 0, comment := 0, code := 10, nFiles := 1 }
    none none [("C", 10)]

/-- Report for "Foo 2". -/
def reportFoo2 : CLOCReport :=
  mkCLOCReport projectFoo2 { blank := 0, comment := 0, code := 10, nFiles := 1 }
    none none [("C", 10)]

/-- Counterexample to C3 as stated: the display names "Foo 1" and "Foo 2"
are distinct but transliterate to the same macro identifier; the run raises
no error at all (no assertion failure appears in the output trace) and all
three output files are written — moreover even an exact duplicate name is
only caught after the two table files have been written. -/
theorem output_no_check_on_collision :
    escapeName reportFoo1.project_name_for_latex =
        escapeName reportFoo2.project_name_for_latex ∧
      reportFoo1.project_name_for_latex ≠ reportFoo2.project_name_for_latex ∧
      outputTrace [reportFoo1, reportFoo2] =
        [Event.write "table-data-rows.tex", Event.write "table.tex",
          Event.write "changes-macros.tex"] ∧
      Event.assertFail ∉ outputTrace [reportFoo1, reportFoo2] := by
  decide

/-- Witness for the amended C3 at two reports sharing the display name
"Demo". -/
theorem output_order_on_duplicate_witness :
    ¬ (([exampleReportB, exampleReportB].map CLOCReport.project_name_for_latex).Nodup) ∧
      outputTrace [exampleReportB, exampleReportB] =
        [Event.write "table-data-rows.tex", Event.write "table.tex", Event.assertFail] :=
  ⟨by decide, output_order_on_duplicate [exampleReportB, exampleReportB] (by decide)⟩

/-- The `dsbd_non_total_count_projects` registry list exactly as its
`Project(...)` constructor calls build it — before the loop that follows
it in the source runs.  All six entries are constructed with the default
`commented = False`. -/
def dsbd_non_total_count_projects_init : List Project :=
  [{ repo_subdir := "qt5/qtbase", project_name := "QtBase 5.15 (everything)",
     baseline := { branch := "baseline-5.15",
                   hash := "970c51ec4861f20ebb33f5299298857669c92aad" },
     cheri := { branch := "5.15", hash := "d9424709b6be50aa093d9d021cd126bd6570ec96" },
     extra_cloc_args := ["--not-match-f=/src/3rdparty/sqlite/sqlite3.c"],
     extra_notes := some (Sum.inr "Lots of changes") },
   { repo_subdir := "qt5/qtbase", project_name := "QtBase 5.10 (src only)",
     baseline := { branch := "upstream/5.10",
                   hash := "4ba535616b8d3dfda7fbe162c6513f3008c1077a" },
     cheri := { branch := "5.10-thesis", hash := "33de53d5ec4c3f58b4960e835911215388e38235" },
     extra_cloc_args := ["--match-d=/(src|include)(/|$)",
                         "--not-match-f=/src/3rdparty/sqlite/sqlite3.c"],
     extra_efficiency := some (Sum.inl true), extra_offset := some (Sum.inl true),
     extra_ptrcmp := some (Sum.inl true), extra_cherish := some (Sum.inl false),
     extra_other := some (Sum.inl true) },
   { repo_subdir := "qt5/qtbase", project_name := "QtBase 5.10 (tests only)",
     baseline := { branch := "upstream/5.10",
                   hash := "4ba535616b8d3dfda7fbe162c6513f3008c1077a" },
     cheri := { branch := "5.10-thesis", hash := "33de53d5ec4c3f58b4960e835911215388e38235" },
     extra_cloc_args := ["--match-d=/(tests)(/|$)",
                         "--not-match-f=/src/3rdparty/sqlite/sqlite3.c"],
     extra_efficiency := some (Sum.inl true), extra_offset := some (Sum.inl true),
     extra_ptrcmp := some (Sum.inl true), extra_cherish := some (Sum.inl false),
     extra_other := some (Sum.inl true) },
   { repo_subdir := "qt5/qtbase", project_name := "QtBase 5.10 (examples only)",
     baseline := { branch := "upstream/5.10",
                   hash := "4ba535616b8d3dfda7fbe162c6513f3008c1077a" },
     cheri := { branch := "5.10-thesis", hash := "33de53d5ec4c3f58b4960e835911215388e38235" },
     extra_cloc_args := ["--match-d=/(examples)(/|$)",
                         "--not-match-f=/src/3rdparty/sqlite/sqlite3.c"],
     extra_efficiency := some (Sum.inl true), extra_offset := some (Sum.inl true),
     extra_ptrcmp := some (Sum.inl true), extra_cherish := some (Sum.inl false),
     extra_other := some (Sum.inl true) },
   { repo_subdir := "qt5/qtbase", project_name := "QtBase 5.10 (everything)",
     baseline := { branch := "upstream/5.10",
                   hash := "4ba535616b8d3dfda7fbe162c6513f3008c1077a" },
     cheri := { branch := "5.10-thesis", hash := "33de53d5ec4c3f58b4960e835911215388e38235" },
     extra_cloc_args := ["--not-match-f=/src/3rdparty/sqlite/sqlite3.c"],
     extra_efficiency := some (Sum.inl true), extra_offset := some (Sum.inl true),
     extra_ptrcmp := some (Sum.inl true), extra_cherish := some (Sum.inl false),
     extra_other := some (Sum.inl true) },
   { repo_subdir := "xvnc-server", project_name := "XVnc server (all)",
     baseline := { branch := "xorg-server-1.20.12",
                   hash := "5e516c7be478eb66088e9898407202b07ba8c790" },
     cheri := { branch := "server-1.20-branch",
                hash := "1250bc8fdb1ecb1b94e29c32e3d15403ee0c64fc" },
     extra_cloc_args := [],
     extra_notes := some (Sum.inr "Fix realloc") }]

/-- Models the loop that follows the list in the source,
`for p in dsbd_non_total_count_projects: p.commented = True`, which
overwrites the `commented` field of every descriptor in the list after
construction. -/
def set_commented_true (l : List Project) : List Project :=
  l.map (fun p => { p with commented := true })

/-- The `dsbd_non_total_count_projects` list as the rest of the program
consumes it, i.e. after the `commented` loop has run. -/
def dsbd_non_total_count_projects : List Project :=
  set_commented_true dsbd_non_total_count_projects_init

/-- Counterexample to C9 as stated: the six descriptors of
`dsbd_non_total_count_projects` are all constructed with
`commented = False`, and the loop right after the registry list mutates
that field of every one of them to `True`, so the consumed list differs
from the constructed list. -/
theorem dsbd_commented_mutation :
    dsbd_non_total_count_projects_init.map Project.commented =
        [false, false, false, false, false, false] ∧
      dsbd_non_total_count_projects.map Project.commented =
        [true, true, true, true, true, true] ∧
      dsbd_non_total_count_projects ≠ dsbd_non_total_count_projects_init := by
  decide

/-- C9 (amended): the only post-construction modification of a registry
descriptor is the `commented` field of the `dsbd_non_total_count_projects`
entries, which the setup loop sets to `True` before the registry is
consumed; every other field keeps its constructed value. -/
theorem set_commented_only_commented (l : List Project) :
    (set_commented_true l).map (fun p => { p with commented := false }) =
        l.map (fun p => { p with commented := false }) ∧
      (set_commented_true l).map Project.commented = List.replicate l.length true := by
  induction l with
  | nil => exact ⟨rfl, rfl⟩
  | cons p rest ih =>
    refine ⟨?_, ?_⟩
    · have h1 := ih.1
      simp only [set_commented_true, List.map_cons] at h1 ⊢
      rw [h1]
    · simpa [set_commented_true, List.replicate_succ] using ih.2
